import Mathlib

/-!
Verification development for the `deploy` command of the SKAhack/ship
repository (`cmd/deploy.go`).  The Go source is shallowly embedded below:
pure helpers become Lean functions, the external AWS / library calls made
by `execute` become an explicit environment of oracle responses, and the
sequence of external calls is recorded as a trace of events.  Go's
three-way outcome (value, `error`, runtime panic) is modelled by `Res`.
-/

namespace Ship

/-- Error values of the vendored `docker/distribution` `reference` and
`digest` packages. -/
inductive RefErr where
  | nameEmpty
  | nameContainsUppercase
  | referenceInvalidFormat
  | nameTooLong
  | digestInvalidFormat
  | digestInvalidLength
  | digestUnsupported
  deriving DecidableEq, Repr

/-- Errors returned by the Go code: either an `errors.New`/`fmt.Sprintf`
message built in `deploy.go`, an error propagated from the vendored
`docker/distribution` reference parser, or an error returned by one of the
external collaborators (AWS clients, history manager, ...). -/
inductive GoErr where
  | msg (s : String)
  | ref (e : RefErr)
  | ext (s : String)
  deriving DecidableEq, Repr

/-- Go outcome: a returned value, a returned `error`, or a runtime panic
(failed interface type assertion, out-of-range slice index). -/
inductive Res (α : Type) where
  | ok (a : α)
  | err (e : GoErr)
  | panic
  deriving DecidableEq, Repr

/-! ## A small regular-expression engine

`deploy.go` and the vendored `docker/distribution` reference package work
through Go `regexp` patterns.  The patterns are embedded verbatim as `RE`
syntax trees and matched by a leftmost-first backtracking matcher with
numbered capture groups, which agrees with Go `regexp` submatch semantics
on the anchored patterns used here (Go `regexp` is leftmost-first and
greedy by default).  `fuel` bounds the recursion depth of the matcher; all
call sites supply fuel far beyond the depth reachable on their inputs.
-/

/-- Regular-expression syntax.  `grp` is a numbered capturing group. -/
inductive RE where
  | eps
  | pred (p : Char → Bool)
  | cat (a b : RE)
  | alt (a b : RE)
  | star (r : RE)
  | grp (n : Nat) (r : RE)

/-- Capture environment: group number to captured characters. -/
abbrev Caps := List (Nat × List Char)

/-- Leftmost-first backtracking matcher in continuation-passing style.
In `alt` the left branch is preferred, `star` is greedy. -/
def RE.mtch : Nat → RE → List Char → Caps → (List Char → Caps → Option Caps) → Option Caps
  | 0, _, _, _, _ => none
  | _ + 1, .eps, s, e, k => k s e
  | _ + 1, .pred p, s, e, k =>
    match s with
    | [] => none
    | c :: s' => if p c then k s' e else none
  | fuel + 1, .cat a b, s, e, k => RE.mtch fuel a s e fun s' e' => RE.mtch fuel b s' e' k
  | fuel + 1, .alt a b, s, e, k =>
    match RE.mtch fuel a s e k with
    | some res => some res
    | none => RE.mtch fuel b s e k
  | fuel + 1, .star r, s, e, k =>
    match RE.mtch fuel r s e (fun s' e' => RE.mtch fuel (.star r) s' e' k) with
    | some res => some res
    | none => k s e
  | fuel + 1, .grp n r, s, e, k =>
    RE.mtch fuel r s e fun s' e' => k s' ((n, s.take (s.length - s'.length)) :: e')

/-- Captured text of group `n` (empty when the group did not match),
mirroring the empty string Go places in an unmatched submatch slot. -/
def capGet (e : Caps) (n : Nat) : List Char :=
  match e.find? (fun x => x.1 == n) with
  | some x => x.2
  | none => []

/-- Fuel that amply dominates the matcher's recursion depth on `s` for the
patterns in this file. -/
def reFuel (s : List Char) : Nat := (s.length + 2) * 4000

/-- Go `FindStringSubmatch` on an anchored pattern: match the whole string
and return the capture environment, or `none` when there is no match. -/
def reFind (r : RE) (s : List Char) : Option Caps :=
  RE.mtch (reFuel s) r s [] fun rest e =>
    match rest with
    | [] => some e
    | _ => none

/-! Character classes of the Go patterns. -/

def isDigitC (c : Char) : Bool := '0' ≤ c && c ≤ '9'

def isLowerC (c : Char) : Bool := 'a' ≤ c && c ≤ 'z'

def isUpperC (c : Char) : Bool := 'A' ≤ c && c ≤ 'Z'

/-- Go `[a-z0-9]` -/
def isAlnumLower (c : Char) : Bool := isLowerC c || isDigitC c

/-- Go `[a-zA-Z0-9]` -/
def isAlnumAny (c : Char) : Bool := isLowerC c || isUpperC c || isDigitC c

/-- Go `\w` = `[0-9A-Za-z_]` -/
def isWordC (c : Char) : Bool := isAlnumAny c || c == '_'

/-- Go `[[:xdigit:]]` = `[0-9a-fA-F]` -/
def isHexC (c : Char) : Bool :=
  isDigitC c || ('a' ≤ c && c ≤ 'f') || ('A' ≤ c && c ≤ 'F')

/-! Combinators matching the helpers of `reference/regexp.go`. -/

/-- A single literal character. -/
def chrc (c : Char) : RE := .pred (fun x => x == c)

/-- Go `literal`: a literal string. -/
def strLit (s : String) : RE := s.toList.foldr (fun c r => .cat (chrc c) r) .eps

/-- Go `optional`: `(?:r)?`, greedy. -/
def reOpt (r : RE) : RE := .alt r .eps

/-- Go `repeated`: `(?:r)+`, greedy. -/
def rePlus (r : RE) : RE := .cat r (.star r)

/-- Alternation over a list, preferring earlier entries. -/
def altList : List RE → RE
  | [] => .eps
  | [r] => r
  | r :: rs => .alt r (altList rs)

/-- Sequencing over a list. -/
def catList : List RE → RE
  | [] => .eps
  | r :: rs => .cat r (catList rs)

/-- Go `{0,n}`, greedy. -/
def repAtMost (r : RE) : Nat → RE
  | 0 => .eps
  | n + 1 => .alt (.cat r (repAtMost r n)) .eps

/-- Go `{n}` -/
def repExact (r : RE) : Nat → RE
  | 0 => .eps
  | n + 1 => .cat r (repExact r n)

/-! ## The vendored `docker/distribution` reference grammar

Patterns from `reference/regexp.go` (the revision providing
`reference.SplitHostname`, as vendored by this repository).
-/

/-- Go `alphaNumericRegexp = [a-z0-9]+` -/
def alphaNumericRegexp : RE := rePlus (.pred isAlnumLower)

/-- Go `separatorRegexp = (?:[._]|__|[-]*)` -/
def separatorRegexp : RE :=
  altList [.pred (fun c => c == '.' || c == '_'), strLit "__", .star (chrc '-')]

/-- Go `nameComponentRegexp = alphaNumeric (?:(?:separator alphaNumeric)+)?` -/
def nameComponentRegexp : RE :=
  .cat alphaNumericRegexp (reOpt (rePlus (.cat separatorRegexp alphaNumericRegexp)))

/-- Go `hostnameComponentRegexp = (?:[a-zA-Z0-9]|[a-zA-Z0-9][a-zA-Z0-9-]*[a-zA-Z0-9])` -/
def hostnameComponentRegexp : RE :=
  .alt (.pred isAlnumAny)
    (.cat (.pred isAlnumAny)
      (.cat (.star (.pred (fun c => isAlnumAny c || c == '-'))) (.pred isAlnumAny)))

/-- Go `hostnameRegexp = component (?:(?:\.component)+)? (?::[0-9]+)?` -/
def hostnameRegexp : RE :=
  catList [hostnameComponentRegexp,
    reOpt (rePlus (.cat (chrc '.') hostnameComponentRegexp)),
    reOpt (.cat (chrc ':') (rePlus (.pred isDigitC)))]

/-- Go `TagRegexp = [\w][\w.-]{0,127}` -/
def TagRegexp : RE :=
  .cat (.pred isWordC) (repAtMost (.pred (fun c => isWordC c || c == '.' || c == '-')) 127)

/-- Go `DigestRegexp = [A-Za-z][A-Za-z0-9]*(?:[-_+.][A-Za-z][A-Za-z0-9]*)*[:][[:xdigit:]]{32,}` -/
def DigestRegexp : RE :=
  catList [.pred (fun c => isUpperC c || isLowerC c),
    .star (.pred isAlnumAny),
    .star (catList [.pred (fun c => c == '-' || c == '_' || c == '+' || c == '.'),
      .pred (fun c => isUpperC c || isLowerC c),
      .star (.pred isAlnumAny)]),
    chrc ':',
    repExact (.pred isHexC) 32,
    .star (.pred isHexC)]

/-- Go `NameRegexp = (?:hostname/)? nameComponent (?:(?:/nameComponent)+)?` -/
def NameRegexp : RE :=
  catList [reOpt (.cat hostnameRegexp (chrc '/')),
    nameComponentRegexp,
    reOpt (rePlus (.cat (chrc '/') nameComponentRegexp))]

/-- Go `anchoredNameRegexp`: `NameRegexp` with the hostname and the remainder
captured, used by `reference.SplitHostname`. -/
def anchoredNameRegexp : RE :=
  .cat (reOpt (.cat (.grp 1 hostnameRegexp) (chrc '/')))
    (.grp 2 (.cat nameComponentRegexp (reOpt (rePlus (.cat (chrc '/') nameComponentRegexp)))))

/-- Go `ReferenceRegexp = (name)(?::(tag))?(?:@(digest))?`, anchored. -/
def ReferenceRegexp : RE :=
  catList [.grp 1 NameRegexp,
    reOpt (.cat (chrc ':') (.grp 2 TagRegexp)),
    reOpt (.cat (chrc '@') (.grp 3 DigestRegexp))]

/-- The `digest` package pattern `[a-zA-Z0-9-_+.]+:[a-fA-F0-9]+` (anchored
form used by `Digest.Validate`). -/
def digestCharRegexp : RE :=
  catList [rePlus (.pred (fun c => isAlnumAny c || c == '-' || c == '_' || c == '+' || c == '.')),
    chrc ':',
    rePlus (.pred isHexC)]

/-- Go `digest.ParseDigest` validation: anchored digest pattern, then the
algorithm prefix must be a supported algorithm and the hex part must have
the algorithm's exact length. -/
def digestValidate (s : String) : Except RefErr Unit :=
  if (reFind digestCharRegexp s.toList).isNone then .error .digestInvalidFormat
  else
    match s.toList.findIdx? (fun c => c == ':') with
    | none => .error .digestInvalidFormat
    | some i =>
      if i + 1 == s.length then .error .digestInvalidFormat
      else
        let algorithm := String.mk (s.toList.take i)
        let hexLen := s.length - (i + 1)
        if algorithm = "sha256" then (if hexLen == 64 then .ok () else .error .digestInvalidLength)
        else if algorithm = "sha384" then (if hexLen == 96 then .ok () else .error .digestInvalidLength)
        else if algorithm = "sha512" then (if hexLen == 128 then .ok () else .error .digestInvalidLength)
        else .error .digestUnsupported

/-- The structured result of `reference.Parse`: the `name`, `tag` and
`digest` submatches (empty when absent).  The returned Go interface value
implements `reference.Named` exactly when `name` is nonempty and
`reference.Tagged` exactly when `tag` is nonempty
(`getBestReferenceType`). -/
structure GoRef where
  name : String
  tag : String
  digest : String
  deriving DecidableEq, Repr

/-- Go `reference.NameTotalLengthMax` -/
def NameTotalLengthMax : Nat := 255

/-- Go `reference.Parse`. -/
def referenceParse (s : String) : Except RefErr GoRef :=
  match reFind ReferenceRegexp s.toList with
  | none =>
    if s = "" then .error .nameEmpty
    else if (reFind ReferenceRegexp s.toLower.toList).isSome then .error .nameContainsUppercase
    else .error .referenceInvalidFormat
  | some caps =>
    let name := String.mk (capGet caps 1)
    let tag := String.mk (capGet caps 2)
    let dgst := String.mk (capGet caps 3)
    if NameTotalLengthMax < name.length then .error .nameTooLong
    else if 0 < dgst.length then
      match digestValidate dgst with
      | .error e => .error e
      | .ok _ => .ok { name := name, tag := tag, digest := dgst }
    else .ok { name := name, tag := tag, digest := "" }

/-- Go `reference.SplitHostname`. -/
def splitHostname (name : String) : String × String :=
  match reFind anchoredNameRegexp name.toList with
  | none => ("", name)
  | some caps => (String.mk (capGet caps 1), String.mk (capGet caps 2))

/-- Go `dockerImage` struct of `deploy.go`. -/
structure dockerImage where
  Name : String
  Tag : String
  RepositoryName : String
  HostName : String
  deriving DecidableEq, Repr

/-- Go `(f *deployCmd) parseDockerImage`.  The Go code performs the unchecked
interface type assertions `ref.(reference.Named)` (inside the
`SplitHostname` call) and `ref.(reference.Tagged)`; when the parsed
reference does not implement the asserted interface the assertion panics,
modelled by `Res.panic`. -/
def parseDockerImage (image : String) : Res dockerImage :=
  match referenceParse image with
  | .error e => .err (.ref e)
  | .ok ref =>
    if ref.name = "" then .panic
    else if ref.tag = "" then .panic
    else
      let hr := splitHostname ref.name
      .ok { Name := ref.name, Tag := ref.tag, RepositoryName := hr.2, HostName := hr.1 }

/-- Go `ECRRegex` of `deploy.go`:
`[0-9]+\.dkr\.ecr\.(us|ca|eu|ap|sa)-(east|west|central|northeast|southeast|south)-[12]\.amazonaws\.com`, anchored. -/
def ECRRegex : RE :=
  catList [rePlus (.pred isDigitC), strLit ".dkr.ecr.",
    altList [strLit "us", strLit "ca", strLit "eu", strLit "ap", strLit "sa"],
    chrc '-',
    altList [strLit "east", strLit "west", strLit "central", strLit "northeast",
      strLit "southeast", strLit "south"],
    chrc '-', .pred (fun c => c == '1' || c == '2'),
    strLit ".amazonaws.com"]

/-- Go `(f *deployCmd) isECRHosted`. -/
def isECRHosted (img : dockerImage) : Bool :=
  (reFind ECRRegex img.HostName.toList).isSome

/-! ## ECS data model

`ecs.ContainerDefinition` and `ecs.TaskDefinition` are modelled with the
fields `deploy.go` reads or writes, plus representative pass-through
fields (`Name`, `Environment`, `Revision`, `TaskDefinitionArn`, `Status`).
Go pointer-typed fields are modelled by their values.
-/

/-- Go `ecs.ContainerDefinition`: the image reference plus representative
orchestration metadata the transform must pass through untouched. -/
structure ContainerDefinition where
  Image : String
  Name : String
  Cpu : Int
  Memory : Int
  Essential : Bool
  Environment : List (String × String)
  deriving DecidableEq, Repr

/-- Go `ecs.TaskDefinition`: the ten fields forwarded by
`registerTaskDefinition` plus the baseline-only metadata (`Revision`,
`TaskDefinitionArn`, `Status`) that must not leak into a registration. -/
structure TaskDefinition where
  ContainerDefinitions : List ContainerDefinition
  Cpu : String
  ExecutionRoleArn : String
  Family : String
  Memory : String
  NetworkMode : String
  PlacementConstraints : List String
  TaskRoleArn : String
  Volumes : List String
  RequiresCompatibilities : List String
  Revision : Int
  TaskDefinitionArn : String
  Status : String
  deriving DecidableEq, Repr

/-- The `for _, vp := range taskDef.ContainerDefinitions` loop inside
`createNewTaskDefinition`: copy the container, parse its image, and keep
(with the image rewritten to `img.Name:id`) exactly the ECR-hosted ones;
a parse failure aborts the whole transform. -/
def containerLoop (id : String) : List ContainerDefinition → Res (List ContainerDefinition)
  | [] => .ok []
  | c :: rest =>
    match parseDockerImage c.Image with
    | .err e => .err e
    | .panic => .panic
    | .ok img =>
      if isECRHosted img then
        match containerLoop id rest with
        | .ok cs => .ok ({ c with Image := img.Name ++ ":" ++ id } :: cs)
        | .err e => .err e
        | .panic => .panic
      else containerLoop id rest

/-- Go `(f *deployCmd) createNewTaskDefinition`: shallow-copy the task
definition and replace its container list by the rewritten one. -/
def createNewTaskDefinition (id : String) (taskDef : TaskDefinition) : Res TaskDefinition :=
  match containerLoop id taskDef.ContainerDefinitions with
  | .ok containers => .ok { taskDef with ContainerDefinitions := containers }
  | .err e => .err e
  | .panic => .panic

/-- Go `ecs.RegisterTaskDefinitionInput`: exactly the ten fields that
`registerTaskDefinition` submits. -/
structure RegisterTaskDefinitionInput where
  ContainerDefinitions : List ContainerDefinition
  Cpu : String
  ExecutionRoleArn : String
  Family : String
  Memory : String
  NetworkMode : String
  PlacementConstraints : List String
  TaskRoleArn : String
  Volumes : List String
  RequiresCompatibilities : List String
  deriving DecidableEq, Repr

/-- The `params` value built by `(f *deployCmd) registerTaskDefinition`
before calling the ECS API. -/
def buildRegisterInput (taskDef : TaskDefinition) : RegisterTaskDefinitionInput :=
  { ContainerDefinitions := taskDef.ContainerDefinitions,
    Cpu := taskDef.Cpu,
    ExecutionRoleArn := taskDef.ExecutionRoleArn,
    Family := taskDef.Family,
    Memory := taskDef.Memory,
    NetworkMode := taskDef.NetworkMode,
    PlacementConstraints := taskDef.PlacementConstraints,
    TaskRoleArn := taskDef.TaskRoleArn,
    Volumes := taskDef.Volumes,
    RequiresCompatibilities := taskDef.RequiresCompatibilities }

/-! ## ECR retagging (`tagDockerImage`)

The ECR SDK request/response shapes are modelled faithfully: a
`BatchGetImage` response carries an `Images` slice and a `Failures` slice
(a missing image is reported in `Failures` with a nil Go error, per the
ECR API), and `tagDockerImage` reads `img.Images[0]` without checking the
slice length — an out-of-range panic when `Images` is empty.
-/

structure ImageIdentifier where
  ImageTag : String
  deriving DecidableEq, Repr

structure BatchGetImageInput where
  ImageIds : List ImageIdentifier
  RepositoryName : String
  AcceptedMediaTypes : List String
  deriving DecidableEq, Repr

structure EcrImage where
  ImageManifest : String
  deriving DecidableEq, Repr

structure ImageFailure where
  FailureCode : String
  deriving DecidableEq, Repr

structure BatchGetImageOutput where
  Images : List EcrImage
  Failures : List ImageFailure
  deriving DecidableEq, Repr

structure PutImageInput where
  ImageManifest : String
  RepositoryName : String
  ImageTag : String
  deriving DecidableEq, Repr

/-- One call made by `tagDockerImage` to the ECR client. -/
inductive EcrCall where
  | batchGetImage (params : BatchGetImageInput)
  | putImage (params : PutImageInput)
  deriving DecidableEq, Repr

/-- Oracle responses of the external ECR client. -/
structure EcrClient where
  batchGetImageR : BatchGetImageInput → Except GoErr BatchGetImageOutput
  putImageR : PutImageInput → Except GoErr Unit

/-- Go `(f *deployCmd) tagDockerImage`, returning the calls it issued and its
outcome. -/
def tagDockerImage (ecrClient : EcrClient) (repoName fromTag toTag : String) :
    List EcrCall × Res Unit :=
  let params : BatchGetImageInput :=
    { ImageIds := [{ ImageTag := fromTag }],
      RepositoryName := repoName,
      AcceptedMediaTypes :=
        ["application/vnd.docker.distribution.manifest.v1+json",
         "application/vnd.docker.distribution.manifest.v2+json",
         "application/vnd.oci.image.manifest.v1+json"] }
  match ecrClient.batchGetImageR params with
  | .error e => ([.batchGetImage params], .err e)
  | .ok img =>
    match img.Images with
    | [] => ([.batchGetImage params], .panic)
    | img0 :: _ =>
      let putParams : PutImageInput :=
        { ImageManifest := img0.ImageManifest,
          RepositoryName := repoName,
          ImageTag := toTag }
      match ecrClient.putImageR putParams with
      | .error e => ([.batchGetImage params, .putImage putParams], .err e)
      | .ok _ => ([.batchGetImage params, .putImage putParams], .ok ())

/-! ## Image options (`--image` flag values)
-/

structure imageOption where
  RepositoryName : String
  Tag : String
  deriving DecidableEq, Repr

structure imageOptions where
  Value : List imageOption
  deriving DecidableEq, Repr

/-- Go `(t *imageOptions) Get`: first option whose repository name matches. -/
def imageOptions.Get (t : imageOptions) (repoName : String) : Option imageOption :=
  t.Value.find? (fun v => v.RepositoryName == repoName)

/-! ## The deployment pipeline (`execute`)

`execute` is embedded as a function of the command's flags and an
environment of oracle responses for the external calls it makes (`libecs`
helpers, the history manager, the ECR retag, ULID generation).  It
returns the ordered trace of external calls together with its outcome.
Logger/Slack notifications mutate no platform state and are not traced.
-/

/-- Go `ecs.Service` as used by `execute`: the current task definition ARN
and the deployments slice (only its length is read). -/
structure Service where
  TaskDefinition : String
  Deployments : List String
  deriving DecidableEq, Repr

/-- Flag fields of `deployCmd`. -/
structure deployCmdFlags where
  cluster : String
  serviceName : String
  revision : Int
  images : imageOptions
  backend : String
  slackWebhookUrl : String
  deriving DecidableEq, Repr

/-- One external call of the pipeline, in the order `execute` makes
them. -/
inductive Event where
  | describeService (cluster serviceName : String)
  | describeTaskDefinition (arn : String)
  | retag (repoName fromTag toTag : String)
  | register (input : RegisterTaskDefinitionInput)
  | updateService
  | waitUpdateService
  | pushState (revision : Int) (message : String)
  deriving DecidableEq, Repr

/-- Oracle responses of the collaborators `execute` calls.  `uniqueIDR`
is the ULID produced by the single `ulid.MustNew` call of the attempt;
`tagDockerImageR` abstracts one `tagDockerImage` call by its outcome
(`tagDockerImage` itself is modelled separately above). -/
structure Env where
  region : String
  sessionR : Except GoErr Unit
  newHistoryManagerR : Except GoErr Unit
  describeServiceR : Except GoErr Service
  specifyRevisionR : Int → String → Except GoErr String
  describeTaskDefinitionR : String → Except GoErr TaskDefinition
  uniqueIDR : String
  tagDockerImageR : String → String → String → Res Unit
  registerR : RegisterTaskDefinitionInput → Except GoErr TaskDefinition
  updateServiceR : Except GoErr Unit
  waitUpdateServiceR : Except GoErr Unit
  pushStateR : Int → String → Except GoErr Unit

/-- The `for _, v := range taskDef.ContainerDefinitions` retag loop of
`execute` (lines 135-150): parse every container's image, look up its
`--image` option by repository name, and retag it — with no check of the
image's host. -/
def retagLoop (images : imageOptions) (env : Env) (uniqueID : String) :
    List ContainerDefinition → List Event × Res Unit
  | [] => ([], .ok ())
  | c :: rest =>
    match parseDockerImage c.Image with
    | .err e => ([], .err e)
    | .panic => ([], .panic)
    | .ok img =>
      match images.Get img.RepositoryName with
      | none => ([], .err (.msg ("can not found image option " ++ img.RepositoryName)))
      | some opt =>
        match env.tagDockerImageR img.RepositoryName opt.Tag uniqueID with
        | .err e => ([.retag img.RepositoryName opt.Tag uniqueID], .err e)
        | .panic => ([.retag img.RepositoryName opt.Tag uniqueID], .panic)
        | .ok _ =>
          let r := retagLoop images env uniqueID rest
          (.retag img.RepositoryName opt.Tag uniqueID :: r.1, r.2)

/-- Go `(f *deployCmd) execute`: the full pipeline, as the ordered trace of
external calls and the outcome. -/
def execute (f : deployCmdFlags) (env : Env) : List Event × Res Unit :=
  if f.cluster = "" then ([], .err (.msg "--cluster is required"))
  else if f.serviceName = "" then ([], .err (.msg "--service-name is required"))
  else if f.images.Value = [] then ([], .err (.msg "--image is required"))
  else if env.region = "" then
    ([], .err (.msg "AWS region is not found. please set a AWS_DEFAULT_REGION or AWS_REGION"))
  else
    match env.sessionR with
    | .error e => ([], .err e)
    | .ok _ =>
      match env.newHistoryManagerR with
      | .error e => ([], .err e)
      | .ok _ =>
        match env.describeServiceR with
        | .error e => ([.describeService f.cluster f.serviceName], .err e)
        | .ok service =>
          let t1 : List Event := [.describeService f.cluster f.serviceName]
          if 1 < service.Deployments.length then
            (t1, .err (.msg (f.serviceName ++ " is currently deploying")))
          else
            let uniqueID := env.uniqueIDR
            match env.specifyRevisionR f.revision service.TaskDefinition with
            | .error e => (t1, .err e)
            | .ok taskDefArn =>
              match env.describeTaskDefinitionR taskDefArn with
              | .error e => (t1 ++ [.describeTaskDefinition taskDefArn], .err e)
              | .ok taskDef =>
                let t2 := t1 ++ [.describeTaskDefinition taskDefArn]
                match createNewTaskDefinition uniqueID taskDef with
                | .err e => (t2, .err e)
                | .panic => (t2, .panic)
                | .ok newTaskDef =>
                  let lr := retagLoop f.images env uniqueID taskDef.ContainerDefinitions
                  match lr.2 with
                  | .err e => (t2 ++ lr.1, .err e)
                  | .panic => (t2 ++ lr.1, .panic)
                  | .ok _ =>
                    let t3 := t2 ++ lr.1
                    let input := buildRegisterInput newTaskDef
                    match env.registerR input with
                    | .error e => (t3 ++ [.register input], .err e)
                    | .ok registerdTaskDef =>
                      let t4 := t3 ++ [.register input]
                      match env.updateServiceR with
                      | .error e => (t4 ++ [.updateService], .err e)
                      | .ok _ =>
                        let t5 := t4 ++ [.updateService]
                        match env.waitUpdateServiceR with
                        | .error e => (t5 ++ [.waitUpdateService], .err e)
                        | .ok _ =>
                          let t6 := t5 ++ [.waitUpdateService]
                          let message := "deploy: " ++ toString taskDef.Revision ++ " -> " ++
                            toString registerdTaskDef.Revision
                          match env.pushStateR registerdTaskDef.Revision message with
                          | .error e =>
                            (t6 ++ [.pushState registerdTaskDef.Revision message], .err e)
                          | .ok _ =>
                            (t6 ++ [.pushState registerdTaskDef.Revision message], .ok ())

/-- Event classifier: is this a retag call? -/
def Event.isRetag : Event → Bool
  | .retag _ _ _ => true
  | _ => false

/-- Event classifier: is this the task-definition registration call? -/
def Event.isRegister : Event → Bool
  | .register _ => true
  | _ => false

/-- Whether `needle` occurs as a contiguous segment of `hay`. -/
def strContains (needle hay : List Char) : Bool :=
  (List.range (hay.length + 1)).any fun i => ((hay.drop i).take needle.length) == needle

/-! ## Concrete fixtures

Small concrete inputs used to witness the theorems below on closed
instances: a baseline task definition with one ECR-hosted container and
one externally hosted sidecar, a happy-path environment, and degenerate
environments for the failure scenarios.
-/

def containerWeb : ContainerDefinition :=
  { Image := "1.dkr.ecr.us-east-1.amazonaws.com/app:v1", Name := "web", Cpu := 256,
    Memory := 512, Essential := true, Environment := [("K", "V")] }

def containerSidecar : ContainerDefinition :=
  { Image := "h/proxy:latest", Name := "sidecar", Cpu := 128, Memory := 256,
    Essential := false, Environment := [] }

def baselineTaskDef : TaskDefinition :=
  { ContainerDefinitions := [containerWeb, containerSidecar],
    Cpu := "256", ExecutionRoleArn := "arn:exec", Family := "fam", Memory := "512",
    NetworkMode := "bridge", PlacementConstraints := ["pc"], TaskRoleArn := "arn:task",
    Volumes := ["vol"], RequiresCompatibilities := ["EC2"], Revision := 3,
    TaskDefinitionArn := "arn:td:3", Status := "ACTIVE" }

/-- What the transform produces from `baselineTaskDef` under unique ID
`01ABC`: the sidecar is dropped, the web image is repointed. -/
def rewrittenTaskDef : TaskDefinition :=
  { baselineTaskDef with ContainerDefinitions :=
      [{ containerWeb with Image := "1.dkr.ecr.us-east-1.amazonaws.com/app:01ABC" }] }

def registeredTaskDef : TaskDefinition :=
  { baselineTaskDef with Revision := 4, TaskDefinitionArn := "arn:td:4" }

def happyEnv : Env :=
  { region := "us-east-1",
    sessionR := .ok (),
    newHistoryManagerR := .ok (),
    describeServiceR := .ok { TaskDefinition := "arn:td:3", Deployments := ["d1"] },
    specifyRevisionR := fun _ arn => .ok arn,
    describeTaskDefinitionR := fun _ => .ok baselineTaskDef,
    uniqueIDR := "01ABC",
    tagDockerImageR := fun _ _ _ => .ok (),
    registerR := fun _ => .ok registeredTaskDef,
    updateServiceR := .ok (),
    waitUpdateServiceR := .ok (),
    pushStateR := fun _ _ => .ok () }

def happyFlags : deployCmdFlags :=
  { cluster := "c", serviceName := "s", revision := 0,
    images := { Value := [{ RepositoryName := "app", Tag := "v1" },
                          { RepositoryName := "proxy", Tag := "latest" }] },
    backend := "SSM", slackWebhookUrl := "" }

/-- Flags that supply a retag option for the ECR-hosted `app` repository
but none for the external `proxy` repository. -/
def missingOptionFlags : deployCmdFlags :=
  { happyFlags with images := { Value := [{ RepositoryName := "app", Tag := "v1" }] } }

/-- An environment whose described service has two in-flight
deployments. -/
def busyEnv : Env :=
  { happyEnv with
    describeServiceR := .ok { TaskDefinition := "arn:td:3", Deployments := ["d1", "d2"] } }

/-- An ECR client whose `BatchGetImage` reports the requested image as
missing: HTTP success, empty `Images`, one `Failures` entry (the
documented ECR behavior for a nonexistent tag). -/
def ecrMissingImageClient : EcrClient :=
  { batchGetImageR := fun _ =>
      .ok { Images := [], Failures := [{ FailureCode := "ImageNotFound" }] },
    putImageR := fun _ => .ok () }

/-- An ECR client that returns one manifest for any lookup. -/
def ecrOneImageClient : EcrClient :=
  { batchGetImageR := fun _ =>
      .ok { Images := [{ ImageManifest := "MANIFEST" }], Failures := [] },
    putImageR := fun _ => .ok () }

/-! ## Heap model of `createNewTaskDefinition`

The Go function receives a `*ecs.TaskDefinition` whose container slice
holds `*ecs.ContainerDefinition` values with `*string` image fields.  To
state that the baseline is never mutated, pointers are modelled as
locations in an explicit heap.  The function only dereferences baseline
locations, copies the pointed-to structs into locals (`newTaskDef :=
*taskDef`, `v := *vp`), and writes the rewritten image into a freshly
allocated string cell (`aws.String`) referenced from a freshly allocated
container cell (`&v`); the returned task definition is a fresh cell as
well (`&newTaskDef`). -/

/-- A heap cell: a Go string, an `ecs.ContainerDefinition` (its `*string`
image field as a location, the other fields summarised by `meta`), or an
`ecs.TaskDefinition` (its container slice as locations, the other fields
summarised by `meta`). -/
inductive HVal where
  | str (s : String)
  | container (imageRef : Nat) (meta : String)
  | taskdef (containerRefs : List Nat) (meta : String)
  deriving DecidableEq, Repr

abbrev Heap := List (Nat × HVal)

def Heap.lookup (h : Heap) (r : Nat) : Option HVal :=
  match h.find? (fun x => x.1 == r) with
  | some x => some x.2
  | none => none

/-- A location unused by `h`. -/
def Heap.fresh (h : Heap) : Nat := (h.map Prod.fst).foldr max 0 + 1

def Heap.alloc (h : Heap) (v : HVal) : Heap × Nat := ((h.fresh, v) :: h, h.fresh)

/-- The two allocations performed for a kept container: the rewritten
image string (`aws.String(fmt.Sprintf(...))`) and the escaping local copy
`&v` whose image field points at it. -/
def allocRewritten (id : String) (img : dockerImage) (meta : String) (h : Heap) : Heap × Nat :=
  let a1 := h.alloc (.str (img.Name ++ ":" ++ id))
  a1.1.alloc (.container a1.2 meta)

/-- The container loop of `createNewTaskDefinition` over the heap.
Dereferencing an absent (nil/dangling) location is a Go panic. -/
def containerLoopH (id : String) : Heap → List Nat → Heap × Res (List Nat)
  | h, [] => (h, .ok [])
  | h, vp :: rest =>
    match h.lookup vp with
    | some (.container imageRef meta) =>
      match h.lookup imageRef with
      | some (.str image) =>
        match parseDockerImage image with
        | .err e => (h, .err e)
        | .panic => (h, .panic)
        | .ok img =>
          if isECRHosted img then
            let a2 := allocRewritten id img meta h
            match containerLoopH id a2.1 rest with
            | (h', .ok cs) => (h', .ok (a2.2 :: cs))
            | (h', .err e) => (h', .err e)
            | (h', .panic) => (h', .panic)
          else containerLoopH id h rest
      | _ => (h, .panic)
    | _ => (h, .panic)

/-- Go `createNewTaskDefinition` over the heap: returns the extended heap and
the location of the freshly allocated rewritten task definition. -/
def createNewTaskDefinitionH (id : String) (h : Heap) (tdRef : Nat) : Heap × Res Nat :=
  match h.lookup tdRef with
  | some (.taskdef refs meta) =>
    match containerLoopH id h refs with
    | (h', .ok cs) =>
      let a := (h' : Heap).alloc (.taskdef cs meta)
      (a.1, .ok a.2)
    | (h', .err e) => (h', .err e)
    | (h', .panic) => (h', .panic)
  | _ => (h, .panic)

/-- A concrete baseline heap: a task-definition cell pointing at one
container cell pointing at its image string. -/
def heapBaseline : Heap :=
  [(1, .str "h/a:v1"), (2, .container 1 "sidecar"), (3, .taskdef [2] "family")]

/-! Heap preservation lemmas. -/

theorem mem_le_foldr_max (r : Nat) (l : List Nat) (hm : r ∈ l) :
    r ≤ l.foldr max 0 := by
  induction l with
  | nil => cases hm
  | cons a l ih =>
    rcases List.mem_cons.mp hm with h | h
    · subst h
      exact Nat.le_max_left r (l.foldr max 0)
    · exact le_trans (ih h) (Nat.le_max_right a (l.foldr max 0))

/-- Allocation preserves every allocated cell. -/
theorem Heap.lookup_alloc (h : Heap) (w : HVal) (r : Nat) (v : HVal)
    (hl : h.lookup r = some v) : ((h.alloc w).1).lookup r = some v := by
  have hrmem : r ∈ h.map Prod.fst := by
    unfold Heap.lookup at hl
    rcases hfind : h.find? (fun x => x.1 == r) with _ | x
    · rw [hfind] at hl; cases hl
    · have hx := List.find?_some hfind
      have hxm := List.mem_of_find?_eq_some hfind
      have : x.1 = r := by simpa using hx
      exact this ▸ List.mem_map_of_mem Prod.fst hxm
  have hlt : r < h.fresh := by
    have := mem_le_foldr_max r (h.map Prod.fst) hrmem
    unfold Heap.fresh
    omega
  unfold Heap.alloc Heap.lookup
  simp only [List.find?]
  have : (h.fresh == r) = false := by
    simp only [beq_eq_false_iff_ne]
    omega
  rw [this]
  exact hl

/-- Go `allocRewritten` preserves every existing cell. -/
theorem allocRewritten_preserves (id : String) (img : dockerImage) (meta : String)
    (h : Heap) (r : Nat) (v : HVal) (hl : h.lookup r = some v) :
    ((allocRewritten id img meta h).1).lookup r = some v := by
  unfold allocRewritten
  exact Heap.lookup_alloc _ _ r v (Heap.lookup_alloc _ _ r v hl)

/-- The container loop only allocates: every cell of the incoming heap is
unchanged in the outgoing heap. -/
theorem containerLoopH_preserves (id : String) :
    ∀ (refs : List Nat) (h : Heap) (r : Nat) (v : HVal),
      h.lookup r = some v → ((containerLoopH id h refs).1).lookup r = some v := by
  intro refs
  induction refs with
  | nil => intro h r v hl; simpa [containerLoopH] using hl
  | cons vp rest ih =>
    intro h r v hl
    rw [containerLoopH]
    split
    · next iref m heqvp =>
      split
      · next image heqimg =>
        split
        · simpa using hl
        · simpa using hl
        · next img heqp =>
          by_cases hECR : isECRHosted img = true
          · rw [if_pos hECR]
            dsimp only []
            split
            · next h' cs heq =>
              have hE := ih (allocRewritten id img m h).1 r v
                (allocRewritten_preserves id img m h r v hl)
              rw [heq] at hE
              simpa using hE
            · next h' e heq =>
              have hE := ih (allocRewritten id img m h).1 r v
                (allocRewritten_preserves id img m h r v hl)
              rw [heq] at hE
              simpa using hE
            · next h' heq =>
              have hE := ih (allocRewritten id img m h).1 r v
                (allocRewritten_preserves id img m h r v hl)
              rw [heq] at hE
              simpa using hE
          · rw [if_neg hECR]
            exact ih h r v hl
      · simpa using hl
    · simpa using hl

/-- Claim C10 core: `createNewTaskDefinitionH` never mutates an existing
heap cell; in particular the baseline task definition, its container
definitions and their image strings are unchanged. -/
theorem createNewTaskDefinitionH_preserves (id : String) (h : Heap) (tdRef : Nat)
    (r : Nat) (v : HVal) (hl : h.lookup r = some v) :
    ((createNewTaskDefinitionH id h tdRef).1).lookup r = some v := by
  rw [createNewTaskDefinitionH]
  split
  · rename_i refs meta _
    have h1 := containerLoopH_preserves id refs h r v hl
    split
    all_goals rename_i hsplit
    all_goals rw [hsplit] at h1
    · exact Heap.lookup_alloc _ _ r v h1
    · exact h1
    · exact h1
  · simpa using hl

/-- Witness for the heap-preservation theorem at a concrete baseline
heap: the baseline container cell is untouched by the transform. -/
theorem createNewTaskDefinitionH_preserves_example :
    ((createNewTaskDefinitionH "01ABC" heapBaseline 3).1).lookup 2 =
      some (.container 1 "sidecar") :=
  createNewTaskDefinitionH_preserves "01ABC" heapBaseline 3 2
    (HVal.container 1 "sidecar") (by decide)

/-! ## The pure transform (`createNewTaskDefinition`)
-/

/-- Success characterization of the transform's container loop: the output
is the in-order `filterMap` keeping exactly the ECR-hosted containers,
images rewritten to `img.Name:id`. -/
theorem containerLoop_ok (id : String) :
    ∀ l cs, containerLoop id l = .ok cs →
      cs = l.filterMap fun c =>
        match parseDockerImage c.Image with
        | .ok img =>
          if isECRHosted img then some { c with Image := img.Name ++ ":" ++ id } else none
        | .err _ => none
        | .panic => none := by
  intro l
  induction l with
  | nil =>
    intro cs h
    rw [containerLoop] at h
    cases h
    simp
  | cons c rest ih =>
    intro cs h
    rw [containerLoop] at h
    split at h
    · exact Res.noConfusion h
    · exact Res.noConfusion h
    · next img heqp =>
      by_cases hECR : isECRHosted img = true
      · rw [if_pos hECR] at h
        split at h
        · next cs' heq =>
          cases h
          rw [List.filterMap_cons]
          simp only [heqp, hECR, if_true]
          rw [ih cs' heq]
        · exact Res.noConfusion h
        · exact Res.noConfusion h
      · rw [if_neg hECR] at h
        rw [List.filterMap_cons]
        simp only [heqp, hECR, if_false]
        exact ih cs h

/-- The transform, on success, keeps all other task-definition fields and
replaces the container list by the loop's output. -/
theorem createNewTaskDefinition_ok (id : String) (td td' : TaskDefinition)
    (h : createNewTaskDefinition id td = .ok td') :
    td' = { td with ContainerDefinitions :=
      td.ContainerDefinitions.filterMap fun c =>
        match parseDockerImage c.Image with
        | .ok img =>
          if isECRHosted img then some { c with Image := img.Name ++ ":" ++ id } else none
        | .err _ => none
        | .panic => none } := by
  rw [createNewTaskDefinition] at h
  split at h
  · next cs heq =>
    cases h
    rw [← containerLoop_ok id _ cs heq]
  · exact Res.noConfusion h
  · exact Res.noConfusion h

/-- Claim C1: for every baseline, the transform processes the container
definitions in their original order; every container whose image host is
out of scope (not ECR-hosted) is dropped, and every in-scope container's
image is rewritten to exactly `imageName:uniqueID`. -/
theorem createNewTaskDefinition_filterMap (id : String) (td td' : TaskDefinition)
    (h : createNewTaskDefinition id td = .ok td') :
    td'.ContainerDefinitions = td.ContainerDefinitions.filterMap fun c =>
      match parseDockerImage c.Image with
      | .ok img =>
        if isECRHosted img then some { c with Image := img.Name ++ ":" ++ id } else none
      | .err _ => none
      | .panic => none := by
  rw [createNewTaskDefinition_ok id td td' h]

/-- Witness for C1 at a concrete baseline: the ECR-hosted `web` container
is kept with its image repointed at the unique ID, the externally hosted
`sidecar` is dropped. -/
theorem createNewTaskDefinition_filterMap_example :
    rewrittenTaskDef.ContainerDefinitions =
      baselineTaskDef.ContainerDefinitions.filterMap fun c =>
        match parseDockerImage c.Image with
        | .ok img =>
          if isECRHosted img then some { c with Image := img.Name ++ ":" ++ "01ABC" } else none
        | .err _ => none
        | .panic => none :=
  createNewTaskDefinition_filterMap "01ABC" baselineTaskDef rewrittenTaskDef (by decide)

/-- Claim C9: the transform copies every top-level whitelisted field
unchanged from the baseline; every retained container is a baseline
container with only its image rewritten; and the registration request is
a function of the ten whitelisted fields alone, so baseline-only metadata
(revision, ARN, status) cannot leak into it. -/
theorem createNewTaskDefinition_frame (id : String) (td td' : TaskDefinition)
    (h : createNewTaskDefinition id td = .ok td') :
    (td'.Cpu = td.Cpu ∧ td'.ExecutionRoleArn = td.ExecutionRoleArn ∧ td'.Family = td.Family ∧
      td'.Memory = td.Memory ∧ td'.NetworkMode = td.NetworkMode ∧
      td'.PlacementConstraints = td.PlacementConstraints ∧ td'.TaskRoleArn = td.TaskRoleArn ∧
      td'.Volumes = td.Volumes ∧ td'.RequiresCompatibilities = td.RequiresCompatibilities) ∧
    (∀ c' ∈ td'.ContainerDefinitions, ∃ c, c ∈ td.ContainerDefinitions ∧ ∃ img,
      parseDockerImage c.Image = .ok img ∧ isECRHosted img = true ∧
      c' = { c with Image := img.Name ++ ":" ++ id }) ∧
    (∀ t1 t2 : TaskDefinition, t1.ContainerDefinitions = t2.ContainerDefinitions →
      t1.Cpu = t2.Cpu → t1.ExecutionRoleArn = t2.ExecutionRoleArn → t1.Family = t2.Family →
      t1.Memory = t2.Memory → t1.NetworkMode = t2.NetworkMode →
      t1.PlacementConstraints = t2.PlacementConstraints → t1.TaskRoleArn = t2.TaskRoleArn →
      t1.Volumes = t2.Volumes → t1.RequiresCompatibilities = t2.RequiresCompatibilities →
      buildRegisterInput t1 = buildRegisterInput t2) := by
  refine ⟨?_, ?_, ?_⟩
  · rw [createNewTaskDefinition_ok id td td' h]
    exact ⟨rfl, rfl, rfl, rfl, rfl, rfl, rfl, rfl, rfl⟩
  · intro c' hc'
    rw [createNewTaskDefinition_ok id td td' h] at hc'
    rcases List.mem_filterMap.mp hc' with ⟨c, hcmem, hfc⟩
    refine ⟨c, hcmem, ?_⟩
    split at hfc
    · next img heqp =>
      by_cases hECR : isECRHosted img = true
      · rw [if_pos hECR] at hfc
        cases hfc
        exact ⟨img, heqp, hECR, rfl⟩
      · rw [if_neg hECR] at hfc
        exact Option.noConfusion hfc
    · exact Option.noConfusion hfc
    · exact Option.noConfusion hfc
  · intro t1 t2 h1 h2 h3 h4 h5 h6 h7 h8 h9 h10
    simp only [buildRegisterInput]
    rw [h1, h2, h3, h4, h5, h6, h7, h8, h9, h10]

/-- Witness for C9: concrete frame facts extracted from the theorem at
the sample baseline. -/
theorem createNewTaskDefinition_frame_example :
    rewrittenTaskDef.Family = baselineTaskDef.Family ∧
    rewrittenTaskDef.Cpu = baselineTaskDef.Cpu :=
  ⟨(createNewTaskDefinition_frame "01ABC" baselineTaskDef rewrittenTaskDef
      (by decide)).1.2.2.1,
   (createNewTaskDefinition_frame "01ABC" baselineTaskDef rewrittenTaskDef
      (by decide)).1.1⟩

/-! ## The parser and the retagger on their failing inputs
-/

/-- Claim C5 (code bug): the bare reference `app` satisfies the reference
grammar with its tag absent — `reference.Parse` accepts it — yet
`parseDockerImage` panics on it (failed `reference.Tagged` interface type
assertion) instead of returning a malformed-reference error. -/
theorem parseDockerImage_untagged_panics :
    referenceParse "app" = .ok { name := "app", tag := "", digest := "" } ∧
    parseDockerImage "app" = .panic :=
  ⟨by rfl, by decide⟩

/-- Claim C6 (code bug): `tagDockerImage` requests the v1, v2 and OCI
manifest media types and copies the fetched manifest verbatim to `toTag`
in the same repository; but when no image exists under `fromTag` — ECR
answers with no transport error, an empty `Images` slice and a `Failures`
entry — it panics on the unchecked `img.Images[0]` instead of failing
with an image-not-found error. -/
theorem tagDockerImage_missing_image_panics :
    (tagDockerImage ecrMissingImageClient "app" "v1" "01ABC").2 = .panic ∧
    tagDockerImage ecrOneImageClient "app" "v1" "01ABC" =
      ([.batchGetImage
          { ImageIds := [{ ImageTag := "v1" }],
            RepositoryName := "app",
            AcceptedMediaTypes :=
              ["application/vnd.docker.distribution.manifest.v1+json",
               "application/vnd.docker.distribution.manifest.v2+json",
               "application/vnd.oci.image.manifest.v1+json"] },
        .putImage
          { ImageManifest := "MANIFEST", RepositoryName := "app", ImageTag := "01ABC" }],
       .ok ()) :=
  ⟨by decide, by decide⟩

/-! ## The retag loop
-/

/-- Every event emitted by the retag loop is a retag call. -/
theorem retagLoop_events_retag (images : imageOptions) (env : Env) (uid : String) :
    ∀ l, ∀ e ∈ (retagLoop images env uid l).1, e.isRetag = true := by
  intro l
  induction l with
  | nil => intro e he; rw [retagLoop] at he; simp at he
  | cons c rest ih =>
    intro e he
    rw [retagLoop] at he
    split at he
    · simp at he
    · simp at he
    · next img heqp =>
      split at he
      · simp at he
      · next opt heqo =>
        split at he
        · rw [List.mem_singleton] at he; subst he; rfl
        · rw [List.mem_singleton] at he; subst he; rfl
        · rcases List.mem_cons.mp he with rfl | hmem
          · rfl
          · exact ih e hmem

/-- Every retag event of the loop targets the attempt's unique ID. -/
theorem retagLoop_toTag (images : imageOptions) (env : Env) (uid : String) :
    ∀ l r ft tt, Event.retag r ft tt ∈ (retagLoop images env uid l).1 → tt = uid := by
  intro l
  induction l with
  | nil => intro r ft tt he; rw [retagLoop] at he; simp at he
  | cons c rest ih =>
    intro r ft tt he
    rw [retagLoop] at he
    split at he
    · simp at he
    · simp at he
    · next img heqp =>
      split at he
      · simp at he
      · next opt heqo =>
        split at he
        · rw [List.mem_singleton] at he; cases he; rfl
        · rw [List.mem_singleton] at he; cases he; rfl
        · rcases List.mem_cons.mp he with heq | hmem
          · cases heq; rfl
          · exact ih r ft tt hmem

/-- On success the loop has looked up an option and issued a retag for
every container of the list, whatever its image host. -/
theorem retagLoop_covers (images : imageOptions) (env : Env) (uid : String) :
    ∀ l, (retagLoop images env uid l).2 = .ok () →
      ∀ c ∈ l, ∃ img opt, parseDockerImage c.Image = .ok img ∧
        images.Get img.RepositoryName = some opt ∧
        Event.retag img.RepositoryName opt.Tag uid ∈ (retagLoop images env uid l).1 := by
  intro l
  induction l with
  | nil => intro _ c hc; cases hc
  | cons c0 rest ih =>
    intro hsucc c hc
    rw [retagLoop] at hsucc ⊢
    split at hsucc
    · simp at hsucc
    · simp at hsucc
    · next img heqp =>
      split at hsucc
      · simp at hsucc
      · next opt heqo =>
        split at hsucc
        · simp at hsucc
        · simp at hsucc
        · rcases List.mem_cons.mp hc with rfl | hmem
          · exact ⟨img, opt, heqp, heqo, List.mem_cons_self _ _⟩
          · have hsucc' : (retagLoop images env uid rest).2 = .ok () := by
              simpa using hsucc
            rcases ih hsucc' c hmem with ⟨img', opt', hp', ho', hm'⟩
            exact ⟨img', opt', hp', ho', List.mem_cons_of_mem _ hm'⟩

/-! ## Pipeline-level theorems
-/

/-- A retag event is not a registration. -/
theorem Event.isRegister_eq_false (e : Event) (h : e.isRetag = true) :
    e.isRegister = false := by
  cases e <;> simp_all [Event.isRetag, Event.isRegister]

/-- Claim C4: when the described service already has more than one
deployment, the attempt returns an error and makes no state-changing
platform call: no retag, no spec registration, no service update, and no
history push. -/
theorem execute_aborts_when_already_deploying (f : deployCmdFlags) (env : Env)
    (s : Service) (hs : env.describeServiceR = .ok s)
    (hd : 1 < s.Deployments.length) :
    (∃ e, (execute f env).2 = .err e) ∧
      ∀ ev ∈ (execute f env).1, ev.isRetag = false ∧ ev.isRegister = false ∧
        ev ≠ .updateService ∧ ∀ rev msg, ev ≠ .pushState rev msg := by
  simp only [execute, hs]
  rw [if_pos hd]
  repeat' split
  all_goals exact ⟨⟨_, rfl⟩, by simp [Event.isRetag, Event.isRegister]⟩

/-- Helper: trace split for runs that never reached the registration. -/
theorem noRegister_trace_helper (evs : List Event) (c s arn : String)
    (hevs : ∀ e ∈ evs, e.isRetag = true) :
    ∃ a b, Event.describeService c s :: Event.describeTaskDefinition arn :: evs = a ++ b ∧
      (∀ e ∈ a, e.isRegister = false) ∧ (∀ e ∈ b, e.isRetag = false) := by
  refine ⟨_, [], (List.append_nil _).symm, ?_, by simp⟩
  intro e he
  rcases List.mem_cons.mp he with rfl | he
  · rfl
  rcases List.mem_cons.mp he with rfl | he
  · rfl
  exact Event.isRegister_eq_false e (hevs e he)

/-- Helper: trace split for runs that reached the registration. -/
theorem withRegister_trace_helper (evs tail : List Event) (c s arn : String)
    (inp : RegisterTaskDefinitionInput)
    (hevs : ∀ e ∈ evs, e.isRetag = true)
    (htail : ∀ e ∈ tail, e.isRetag = false) :
    ∃ a b, Event.describeService c s :: Event.describeTaskDefinition arn ::
        (evs ++ Event.register inp :: tail) = a ++ b ∧
      (∀ e ∈ a, e.isRegister = false) ∧ (∀ e ∈ b, e.isRetag = false) := by
  refine ⟨Event.describeService c s :: Event.describeTaskDefinition arn :: evs,
    Event.register inp :: tail, by simp, ?_, ?_⟩
  · intro e he
    rcases List.mem_cons.mp he with rfl | he
    · rfl
    rcases List.mem_cons.mp he with rfl | he
    · rfl
    exact Event.isRegister_eq_false e (hevs e he)
  · intro e he
    rcases List.mem_cons.mp he with rfl | he
    · rfl
    · exact htail e he

/-- Exhaustive case analysis of a pipeline run: every run falls into one
of six classes, with the exact trace shape and the collaborators' answers
that produced it. -/
theorem execute_cases (f : deployCmdFlags) (env : Env) :
    ((execute f env).1 = [] ∧ ∃ e, (execute f env).2 = .err e) ∨
    ((∃ c s, (execute f env).1 = [Event.describeService c s]) ∧
      ∃ e, (execute f env).2 = .err e) ∨
    ((∃ c s arn, (execute f env).1 =
        [Event.describeService c s, Event.describeTaskDefinition arn]) ∧
      ((∃ e, (execute f env).2 = .err e) ∨ (execute f env).2 = .panic)) ∨
    ((∃ c s arn td, env.describeTaskDefinitionR arn = .ok td ∧
        (execute f env).1 = Event.describeService c s :: Event.describeTaskDefinition arn ::
          (retagLoop f.images env env.uniqueIDR td.ContainerDefinitions).1) ∧
      ((∃ e, (execute f env).2 = .err e) ∨ (execute f env).2 = .panic)) ∨
    (∃ c s arn td ntd tail,
      env.describeTaskDefinitionR arn = .ok td ∧
      createNewTaskDefinition env.uniqueIDR td = .ok ntd ∧
      (tail = [] ∨ tail = [Event.updateService] ∨
        tail = [Event.updateService, Event.waitUpdateService]) ∧
      (execute f env).1 = Event.describeService c s :: Event.describeTaskDefinition arn ::
        ((retagLoop f.images env env.uniqueIDR td.ContainerDefinitions).1 ++
          Event.register (buildRegisterInput ntd) :: tail) ∧
      ∃ e, (execute f env).2 = .err e) ∨
    (∃ s arn td ntd rtd,
      env.describeServiceR = .ok s ∧
      env.specifyRevisionR f.revision s.TaskDefinition = .ok arn ∧
      env.describeTaskDefinitionR arn = .ok td ∧
      createNewTaskDefinition env.uniqueIDR td = .ok ntd ∧
      (retagLoop f.images env env.uniqueIDR td.ContainerDefinitions).2 = .ok () ∧
      env.registerR (buildRegisterInput ntd) = .ok rtd ∧
      env.updateServiceR = .ok () ∧ env.waitUpdateServiceR = .ok () ∧
      (execute f env).1 = Event.describeService f.cluster f.serviceName ::
        Event.describeTaskDefinition arn ::
        ((retagLoop f.images env env.uniqueIDR td.ContainerDefinitions).1 ++
          [Event.register (buildRegisterInput ntd), Event.updateService,
            Event.waitUpdateService,
            Event.pushState rtd.Revision
              ("deploy: " ++ toString td.Revision ++ " -> " ++ toString rtd.Revision)]) ∧
      ((execute f env).2 = .ok () ∨ ∃ e, (execute f env).2 = .err e)) := by
  by_cases h1 : f.cluster = ""
  · exact Or.inl ⟨by simp [execute, h1], .msg "--cluster is required", by simp [execute, h1]⟩
  by_cases h2 : f.serviceName = ""
  · exact Or.inl ⟨by simp [execute, h1, h2], .msg "--service-name is required",
      by simp [execute, h1, h2]⟩
  by_cases h3 : f.images.Value = []
  · exact Or.inl ⟨by simp [execute, h1, h2, h3], .msg "--image is required",
      by simp [execute, h1, h2, h3]⟩
  by_cases h4 : env.region = ""
  · exact Or.inl ⟨by simp [execute, h1, h2, h3, h4],
      .msg "AWS region is not found. please set a AWS_DEFAULT_REGION or AWS_REGION",
      by simp [execute, h1, h2, h3, h4]⟩
  rcases h5 : env.sessionR with e5 | u5
  · exact Or.inl ⟨by simp [execute, h1, h2, h3, h4, h5], e5,
      by simp [execute, h1, h2, h3, h4, h5]⟩
  rcases h6 : env.newHistoryManagerR with e6 | u6
  · exact Or.inl ⟨by simp [execute, h1, h2, h3, h4, h5, h6], e6,
      by simp [execute, h1, h2, h3, h4, h5, h6]⟩
  rcases h7 : env.describeServiceR with e7 | s
  · exact Or.inr (Or.inl ⟨⟨f.cluster, f.serviceName,
      by simp [execute, h1, h2, h3, h4, h5, h6, h7]⟩, e7,
      by simp [execute, h1, h2, h3, h4, h5, h6, h7]⟩)
  by_cases h8 : 1 < s.Deployments.length
  · exact Or.inr (Or.inl ⟨⟨f.cluster, f.serviceName,
      by simp [execute, h1, h2, h3, h4, h5, h6, h7, h8]⟩,
      .msg (f.serviceName ++ " is currently deploying"),
      by simp [execute, h1, h2, h3, h4, h5, h6, h7, h8]⟩)
  rcases h9 : env.specifyRevisionR f.revision s.TaskDefinition with e9 | arn
  · exact Or.inr (Or.inl ⟨⟨f.cluster, f.serviceName,
      by simp [execute, h1, h2, h3, h4, h5, h6, h7, h8, h9]⟩, e9,
      by simp [execute, h1, h2, h3, h4, h5, h6, h7, h8, h9]⟩)
  rcases h10 : env.describeTaskDefinitionR arn with e10 | td
  · exact Or.inr (Or.inr (Or.inl ⟨⟨f.cluster, f.serviceName, arn,
      by simp [execute, h1, h2, h3, h4, h5, h6, h7, h8, h9, h10]⟩,
      Or.inl ⟨e10, by simp [execute, h1, h2, h3, h4, h5, h6, h7, h8, h9, h10]⟩⟩))
  rcases h11 : createNewTaskDefinition env.uniqueIDR td with ntd | e11 | _
  rotate_left
  · exact Or.inr (Or.inr (Or.inl ⟨⟨f.cluster, f.serviceName, arn,
      by simp [execute, h1, h2, h3, h4, h5, h6, h7, h8, h9, h10, h11]⟩,
      Or.inl ⟨e11, by simp [execute, h1, h2, h3, h4, h5, h6, h7, h8, h9, h10, h11]⟩⟩))
  · exact Or.inr (Or.inr (Or.inl ⟨⟨f.cluster, f.serviceName, arn,
      by simp [execute, h1, h2, h3, h4, h5, h6, h7, h8, h9, h10, h11]⟩,
      Or.inr (by simp [execute, h1, h2, h3, h4, h5, h6, h7, h8, h9, h10, h11])⟩))
  rcases h12 : (retagLoop f.images env env.uniqueIDR td.ContainerDefinitions).2
    with u12 | e12 | _
  rotate_left
  · exact Or.inr (Or.inr (Or.inr (Or.inl ⟨⟨f.cluster, f.serviceName, arn, td, h10,
      by simp [execute, h1, h2, h3, h4, h5, h6, h7, h8, h9, h10, h11, h12]⟩,
      Or.inl ⟨e12, by simp [execute, h1, h2, h3, h4, h5, h6, h7, h8, h9, h10, h11, h12]⟩⟩)))
  · exact Or.inr (Or.inr (Or.inr (Or.inl ⟨⟨f.cluster, f.serviceName, arn, td, h10,
      by simp [execute, h1, h2, h3, h4, h5, h6, h7, h8, h9, h10, h11, h12]⟩,
      Or.inr (by simp [execute, h1, h2, h3, h4, h5, h6, h7, h8, h9, h10, h11, h12])⟩)))
  rcases h13 : env.registerR (buildRegisterInput ntd) with e13 | rtd
  · exact Or.inr (Or.inr (Or.inr (Or.inr (Or.inl ⟨f.cluster, f.serviceName, arn, td, ntd,
      [], h10, h11, Or.inl rfl,
      by simp [execute, h1, h2, h3, h4, h5, h6, h7, h8, h9, h10, h11, h12, h13], e13,
      by simp [execute, h1, h2, h3, h4, h5, h6, h7, h8, h9, h10, h11, h12, h13]⟩))))
  rcases h14 : env.updateServiceR with e14 | u14
  · exact Or.inr (Or.inr (Or.inr (Or.inr (Or.inl ⟨f.cluster, f.serviceName, arn, td, ntd,
      [Event.updateService], h10, h11, Or.inr (Or.inl rfl),
      by simp [execute, h1, h2, h3, h4, h5, h6, h7, h8, h9, h10, h11, h12, h13, h14], e14,
      by simp [execute, h1, h2, h3, h4, h5, h6, h7, h8, h9, h10, h11, h12, h13, h14]⟩))))
  rcases h15 : env.waitUpdateServiceR with e15 | u15
  · exact Or.inr (Or.inr (Or.inr (Or.inr (Or.inl ⟨f.cluster, f.serviceName, arn, td, ntd,
      [Event.updateService, Event.waitUpdateService], h10, h11, Or.inr (Or.inr rfl),
      by simp [execute, h1, h2, h3, h4, h5, h6, h7, h8, h9, h10, h11, h12, h13, h14, h15],
      e15,
      by simp [execute, h1, h2, h3, h4, h5, h6, h7, h8, h9, h10, h11, h12, h13, h14, h15]⟩))))
  rcases h16 : env.pushStateR rtd.Revision
      ("deploy: " ++ toString td.Revision ++ " -> " ++ toString rtd.Revision) with e16 | u16
  · exact Or.inr (Or.inr (Or.inr (Or.inr (Or.inr ⟨s, arn, td, ntd, rtd, rfl, h9, h10, h11,
      h12, h13, rfl, rfl,
      by simp [execute, h1, h2, h3, h4, h5, h6, h7, h8, h9, h10, h11, h12, h13, h14, h15,
        h16],
      Or.inr ⟨e16,
        by simp [execute, h1, h2, h3, h4, h5, h6, h7, h8, h9, h10, h11, h12, h13, h14, h15,
          h16]⟩⟩))))
  · exact Or.inr (Or.inr (Or.inr (Or.inr (Or.inr ⟨s, arn, td, ntd, rtd, rfl, h9, h10, h11,
      h12, h13, rfl, rfl,
      by simp [execute, h1, h2, h3, h4, h5, h6, h7, h8, h9, h10, h11, h12, h13, h14, h15,
        h16],
      Or.inl (by simp [execute, h1, h2, h3, h4, h5, h6, h7, h8, h9, h10, h11, h12, h13,
        h14, h15, h16])⟩))))

/-- Every pipeline trace splits into a register-free prefix followed by a
retag-free suffix. -/
theorem execute_split_trace (f : deployCmdFlags) (env : Env) :
    ∃ a b, (execute f env).1 = a ++ b ∧
      (∀ e ∈ a, e.isRegister = false) ∧ (∀ e ∈ b, e.isRetag = false) := by
  rcases execute_cases f env with ⟨h, -⟩ | ⟨⟨c, s, h⟩, -⟩ | ⟨⟨c, s, arn, h⟩, -⟩ |
    ⟨⟨c, s, arn, td, -, h⟩, -⟩ | ⟨c, s, arn, td, ntd, tail, -, -, htail, h, -⟩ |
    ⟨s, arn, td, ntd, rtd, -, -, -, -, -, -, -, -, h, -⟩
  · exact ⟨[], [], by simp [h], by simp, by simp⟩
  · refine ⟨_, [], by rw [h, List.append_nil], ?_, by simp⟩
    simp [Event.isRegister]
  · refine ⟨_, [], by rw [h, List.append_nil], ?_, by simp⟩
    simp [Event.isRegister]
  · rw [h]
    exact noRegister_trace_helper _ _ _ _ (retagLoop_events_retag _ _ _ _)
  · rw [h]
    refine withRegister_trace_helper _ _ _ _ _ _ (retagLoop_events_retag _ _ _ _) ?_
    rcases htail with rfl | rfl | rfl <;> simp [Event.isRetag]
  · rw [h]
    exact withRegister_trace_helper _ _ _ _ _ _ (retagLoop_events_retag _ _ _ _)
      (by simp [Event.isRetag])

/-- Claim C3: in the call trace of every attempt, every retag call occurs
strictly before the registration call — the registered spec never
references a tag that was not written first. -/
theorem execute_retag_before_register (f : deployCmdFlags) (env : Env)
    (i j : Nat) (inp : RegisterTaskDefinitionInput) (r ft tt : String)
    (hi : (execute f env).1[i]? = some (.register inp))
    (hj : (execute f env).1[j]? = some (.retag r ft tt)) : j < i := by
  obtain ⟨a, b, htr, hna, hnb⟩ := execute_split_trace f env
  rw [htr] at hi hj
  by_contra hc
  push_neg at hc
  have hia : a.length ≤ i := by
    by_contra hlt
    push_neg at hlt
    rw [List.getElem?_append_left hlt] at hi
    have := hna _ (List.getElem?_mem hi)
    simp [Event.isRegister] at this
  have hjb : a.length ≤ j := le_trans hia hc
  rw [List.getElem?_append_right hjb] at hj
  have := hnb _ (List.getElem?_mem hj)
  simp [Event.isRetag] at this

/-- Witness for C3: in the concrete happy-path trace the retag of `app`
sits at index 2 and the registration at index 4. -/
theorem execute_retag_before_register_example : (2 : Nat) < 4 :=
  execute_retag_before_register happyFlags happyEnv 4 2
    (buildRegisterInput rewrittenTaskDef) "app" "v1" "01ABC" (by decide) (by decide)

/-- Witness for C4: with two in-flight deployments the concrete attempt
errors out after only the describe call. -/
theorem execute_aborts_when_already_deploying_example :
    (∃ e, (execute happyFlags busyEnv).2 = .err e) ∧
      ∀ ev ∈ (execute happyFlags busyEnv).1, ev.isRetag = false ∧ ev.isRegister = false ∧
        ev ≠ .updateService ∧ ∀ rev msg, ev ≠ .pushState rev msg :=
  execute_aborts_when_already_deploying happyFlags busyEnv
    { TaskDefinition := "arn:td:3", Deployments := ["d1", "d2"] } (by rfl) (by decide)

/-- Helper: a pushState event never comes from the retag loop. -/
theorem pushState_not_mem_retagLoop (images : imageOptions) (env : Env) (uid : String)
    (l : List ContainerDefinition) (rev : Int) (msg : String) :
    Event.pushState rev msg ∉ (retagLoop images env uid l).1 := by
  intro hmem
  have := retagLoop_events_retag images env uid l _ hmem
  simp [Event.isRetag] at this

/-- Claim C7 (amended): every retag call of an attempt uses the attempt's
unique ID, verbatim, as the target tag. -/
theorem execute_retag_uses_uniqueID (f : deployCmdFlags) (env : Env)
    (r ft tt : String) (hm : Event.retag r ft tt ∈ (execute f env).1) :
    tt = env.uniqueIDR := by
  rcases execute_cases f env with ⟨h, -⟩ | ⟨⟨c, s, h⟩, -⟩ | ⟨⟨c, s, arn, h⟩, -⟩ |
    ⟨⟨c, s, arn, td, -, h⟩, -⟩ | ⟨c, s, arn, td, ntd, tail, -, -, htail, h, -⟩ |
    ⟨s, arn, td, ntd, rtd, -, -, -, -, -, -, -, -, h, -⟩ <;> rw [h] at hm
  · cases hm
  · simp at hm
  · simp at hm
  · simp at hm
    exact retagLoop_toTag f.images env env.uniqueIDR td.ContainerDefinitions r ft tt hm
  · rcases htail with rfl | rfl | rfl <;>
    · simp at hm
      exact retagLoop_toTag f.images env env.uniqueIDR td.ContainerDefinitions r ft tt hm
  · simp at hm
    exact retagLoop_toTag f.images env env.uniqueIDR td.ContainerDefinitions r ft tt hm

/-- Witness for the amended C7 at the happy path: the retag of `app`
carries the environment's unique ID. -/
theorem execute_retag_uses_uniqueID_example : ("01ABC" : String) = happyEnv.uniqueIDR :=
  execute_retag_uses_uniqueID happyFlags happyEnv "app" "v1" "01ABC" (by decide)

/-- Claim C8: the history entry is pushed strictly after the convergence
wait succeeded — never before it, and never when the wait failed — and
its message is built from the baseline revision number and the newly
registered revision number. -/
theorem execute_pushState_after_wait (f : deployCmdFlags) (env : Env)
    (rev : Int) (msg : String)
    (hm : Event.pushState rev msg ∈ (execute f env).1) :
    env.waitUpdateServiceR = .ok () ∧
    (∃ pre, (execute f env).1 = pre ++ [Event.pushState rev msg] ∧
      Event.waitUpdateService ∈ pre) ∧
    ∃ arn td inp rtd,
      env.describeTaskDefinitionR arn = .ok td ∧ env.registerR inp = .ok rtd ∧
      rev = rtd.Revision ∧
      msg = "deploy: " ++ toString td.Revision ++ " -> " ++ toString rtd.Revision := by
  rcases execute_cases f env with ⟨h, -⟩ | ⟨⟨c, s, h⟩, -⟩ | ⟨⟨c, s, arn, h⟩, -⟩ |
    ⟨⟨c, s, arn, td, -, h⟩, -⟩ | ⟨c, s, arn, td, ntd, tail, -, -, htail, h, -⟩ |
    ⟨s, arn, td, ntd, rtd, -, -, htd, hntd, -, hreg, -, hwait, h, -⟩
  · rw [h] at hm; cases hm
  · rw [h] at hm; simp at hm
  · rw [h] at hm; simp at hm
  · rw [h] at hm
    simp at hm
    exact absurd hm (pushState_not_mem_retagLoop _ _ _ _ _ _)
  · rw [h] at hm
    rcases htail with rfl | rfl | rfl <;>
    · simp at hm
      exact absurd hm (pushState_not_mem_retagLoop _ _ _ _ _ _)
  · rw [h] at hm
    simp at hm
    rcases hm with hbad | ⟨hrev, hmsg⟩
    · exact absurd hbad (pushState_not_mem_retagLoop _ _ _ _ _ _)
    · subst hrev
      subst hmsg
      refine ⟨hwait,
        ⟨Event.describeService f.cluster f.serviceName :: Event.describeTaskDefinition arn ::
          ((retagLoop f.images env env.uniqueIDR td.ContainerDefinitions).1 ++
            [Event.register (buildRegisterInput ntd), Event.updateService,
              Event.waitUpdateService]), ?_, ?_⟩,
        arn, td, buildRegisterInput ntd, rtd, htd, hreg, rfl, rfl⟩
      · rw [h]; simp
      · simp

/-- Witness for C8 at the happy path. -/
theorem execute_pushState_after_wait_example :
    happyEnv.waitUpdateServiceR = .ok () ∧
    (∃ pre, (execute happyFlags happyEnv).1 = pre ++ [Event.pushState 4 "deploy: 3 -> 4"] ∧
      Event.waitUpdateService ∈ pre) ∧
    ∃ arn td inp rtd,
      happyEnv.describeTaskDefinitionR arn = .ok td ∧ happyEnv.registerR inp = .ok rtd ∧
      (4 : Int) = rtd.Revision ∧
      "deploy: 3 -> 4" = "deploy: " ++ toString td.Revision ++ " -> " ++ toString rtd.Revision :=
  execute_pushState_after_wait happyFlags happyEnv 4 "deploy: 3 -> 4" (by decide)

/-- Claim C2 (amended): the retag stage is driven by the baseline's full
container list with no host check: on a successful attempt every
container of the baseline task definition — whether or not its image host
is in scope — had a retag option looked up by repository name and was
retagged under the attempt's unique ID. -/
theorem execute_retags_every_container (f : deployCmdFlags) (env : Env)
    (s : Service) (arn : String) (td : TaskDefinition)
    (hs : env.describeServiceR = .ok s)
    (ha : env.specifyRevisionR f.revision s.TaskDefinition = .ok arn)
    (htd : env.describeTaskDefinitionR arn = .ok td)
    (hok : (execute f env).2 = .ok ()) :
    ∀ c ∈ td.ContainerDefinitions, ∃ img opt,
      parseDockerImage c.Image = .ok img ∧
      f.images.Get img.RepositoryName = some opt ∧
      Event.retag img.RepositoryName opt.Tag env.uniqueIDR ∈ (execute f env).1 := by
  rcases execute_cases f env with ⟨-, e, hres⟩ | ⟨-, e, hres⟩ | ⟨-, ⟨e, hres⟩ | hres⟩ |
    ⟨-, ⟨e, hres⟩ | hres⟩ | ⟨c, s', arn', td', ntd, tail, -, -, -, -, e, hres⟩ |
    ⟨s', arn', td', ntd, rtd, hs', ha', htd', -, hloop, -, -, -, h, -⟩
  · rw [hok] at hres; cases hres
  · rw [hok] at hres; cases hres
  · rw [hok] at hres; cases hres
  · rw [hok] at hres; cases hres
  · rw [hok] at hres; cases hres
  · rw [hok] at hres; cases hres
  · rw [hok] at hres; cases hres
  · have hseq : s' = s := by
      have := hs'.symm.trans hs
      exact (Except.ok.inj this)
    subst hseq
    have haeq : arn' = arn := by
      have := ha'.symm.trans ha
      exact (Except.ok.inj this)
    subst haeq
    have htdeq : td' = td := by
      have := htd'.symm.trans htd
      exact (Except.ok.inj this)
    subst htdeq
    intro c hc
    rcases retagLoop_covers f.images env env.uniqueIDR td'.ContainerDefinitions hloop c hc
      with ⟨img, opt, hp, ho, hmem⟩
    refine ⟨img, opt, hp, ho, ?_⟩
    rw [h]
    simp only [List.mem_cons, List.mem_append]
    exact Or.inr (Or.inr (Or.inl hmem))

/-- Witness for the amended C2: at the happy path, the out-of-scope `web`
and `sidecar` containers both satisfy the coverage statement; here it is
instantiated at `containerWeb`. -/
theorem execute_retags_every_container_example :
    ∃ img opt, parseDockerImage containerWeb.Image = .ok img ∧
      happyFlags.images.Get img.RepositoryName = some opt ∧
      Event.retag img.RepositoryName opt.Tag happyEnv.uniqueIDR ∈
        (execute happyFlags happyEnv).1 :=
  execute_retags_every_container happyFlags happyEnv
    { TaskDefinition := "arn:td:3", Deployments := ["d1"] } "arn:td:3" baselineTaskDef
    (by rfl) (by rfl) (by rfl) (by decide) containerWeb (by decide)

/-- Claim C2 (counterexample): `h/proxy:latest` is hosted outside the
in-scope registry, yet with an option supplied it is retagged, and
without one the attempt fails with the missing-image-option error on its
account. -/
theorem execute_retags_out_of_scope :
    parseDockerImage "h/proxy:latest" =
      .ok { Name := "h/proxy", Tag := "latest", RepositoryName := "proxy", HostName := "h" } ∧
    isECRHosted { Name := "h/proxy", Tag := "latest", RepositoryName := "proxy", HostName := "h" } = false ∧
    Event.retag "proxy" "latest" "01ABC" ∈ (execute happyFlags happyEnv).1 ∧
    (execute missingOptionFlags happyEnv).2 =
      .err (.msg "can not found image option proxy") :=
  ⟨by decide, by decide, by decide, by decide⟩

/-- Claim C7 (counterexample): the history message of a successful attempt
contains the two revision numbers but not the attempt's unique ID. -/
theorem history_message_lacks_uniqueID :
    Event.pushState 4 "deploy: 3 -> 4" ∈ (execute happyFlags happyEnv).1 ∧
    strContains happyEnv.uniqueIDR.toList "deploy: 3 -> 4".toList = false :=
  ⟨by decide, by decide⟩

end Ship

